import Mathlib

/-!
# Payfud landing page: the lead-capture form handler

A shallow embedding of `src/src/PayfudLanding.jsx`: the two regular
expressions used by the validation gate, and `handleSubmit` as a state
passing function over an explicit world (status, issued requests, log,
scheduled redirect) and an explicit environment (clock, network).

JavaScript strings are taken to be well-formed, so a string is a sequence of
Unicode scalar values (`String`, `List Char`).  Both regular expressions
are written without the `u` flag and mention only BMP characters, and a
surrogate half is neither whitespace nor `@`, so testing per UTF-16 code unit
and testing per scalar value accept the same strings.
-/

namespace Payfud

/-! ## Regular expressions -/

/-- Regular expression syntax, as much of it as the source uses. -/
inductive Pattern where
  | never : Pattern
  | empty : Pattern
  | cls : (Char → Bool) → Pattern
  | seq : Pattern → Pattern → Pattern
  | alt : Pattern → Pattern → Pattern
  | star : Pattern → Pattern

namespace Pattern

/-- The quantifier `+`. -/
def plus (r : Pattern) : Pattern := seq r (star r)

/-- The quantifier `?`. -/
def opt (r : Pattern) : Pattern := alt r empty

/-- Does the pattern match the empty string. -/
def nullable : Pattern → Bool
  | never => false
  | empty => true
  | cls _ => false
  | seq r s => nullable r && nullable s
  | alt r s => nullable r || nullable s
  | star _ => true

/-- Brzozowski derivative: what is left to match after reading `c`. -/
def deriv : Pattern → Char → Pattern
  | never, _ => never
  | empty, _ => never
  | cls p, c => if p c then empty else never
  | seq r s, c =>
    if nullable r then alt (seq (deriv r c) s) (deriv s c) else seq (deriv r c) s
  | alt r s, c => alt (deriv r c) (deriv s c)
  | star r, c => seq (deriv r c) (star r)

/-- Does the pattern match some initial segment of the input (a match
attempt at one fixed start index). -/
def matchAtStart : Pattern → List Char → Bool
  | r, [] => nullable r
  | r, c :: cs => nullable r || matchAtStart (deriv r c) cs

/-- The method `RegExp.prototype.test` for a pattern without flags `g` or `y`: the match is
attempted at every start index, from 0 to the length of the input. -/
def test (r : Pattern) : List Char → Bool
  | [] => matchAtStart r []
  | c :: cs => matchAtStart r (c :: cs) || test r cs

/-- The strings a pattern denotes. -/
inductive Matches : Pattern → List Char → Prop where
  | empty : Matches Pattern.empty []
  | cls (p : Char → Bool) (c : Char) : p c = true → Matches (Pattern.cls p) [c]
  | seq (r s : Pattern) (u v : List Char) :
      Matches r u → Matches s v → Matches (Pattern.seq r s) (u ++ v)
  | altL (r s : Pattern) (u : List Char) : Matches r u → Matches (Pattern.alt r s) u
  | altR (r s : Pattern) (u : List Char) : Matches s u → Matches (Pattern.alt r s) u
  | starNil (r : Pattern) : Matches (Pattern.star r) []
  | starCons (r : Pattern) (u v : List Char) :
      Matches r u → Matches (Pattern.star r) v → Matches (Pattern.star r) (u ++ v)

end Pattern

/-- The class escape `\s`: ECMAScript WhiteSpace and LineTerminator code points. -/
def isJsSpace (c : Char) : Bool :=
  let n := c.toNat
  n == 0x09 || n == 0x0A || n == 0x0B || n == 0x0C || n == 0x0D || n == 0x20 ||
  n == 0xA0 || n == 0x1680 || (0x2000 ≤ n && n ≤ 0x200A) ||
  n == 0x2028 || n == 0x2029 || n == 0x202F || n == 0x205F || n == 0x3000 || n == 0xFEFF

/-- The negated class `[^\s@]`. -/
def notSpaceAt (c : Char) : Bool := !(isJsSpace c || c == '@')

/-- A literal pattern character. -/
def lit (a : Char) : Pattern := Pattern.cls (fun c => c == a)

/-- A literal pattern character under the flag `i`.  Without the flag `u` the
engine compares `Canonicalize` of both sides, which upper-cases a code unit but
never maps a non-ASCII one to an ASCII one; against an ASCII pattern character
this is ASCII upper-casing. -/
def litI (a : Char) : Pattern := Pattern.cls (fun c => c.toUpper == a.toUpper)

/-- The pattern `/[^\s@]+@[^\s@]+\.[^\s@]+/`. -/
def emailPattern : Pattern :=
  .seq (.plus (.cls notSpaceAt))
    (.seq (lit '@')
      (.seq (.plus (.cls notSpaceAt))
        (.seq (lit '.') (.plus (.cls notSpaceAt)))))

/-- The body of `/^https?:\/\//i` after the anchor `^`. -/
def schemePattern : Pattern :=
  .seq (litI 'h') (.seq (litI 't') (.seq (litI 't') (.seq (litI 'p')
    (.seq (.opt (litI 's')) (.seq (litI ':') (.seq (litI '/') (litI '/')))))))

/-- The function `validateEmail`: `/[^\s@]+@[^\s@]+\.[^\s@]+/.test(email)`. -/
def validateEmail (email : String) : Bool := emailPattern.test email.toList

/-- The test `/^https?:\/\//i.test(website)`: with the anchor `^` and no flag `m` the
only start index that can match is 0. -/
def testScheme (website : String) : Bool := schemePattern.matchAtStart website.toList

/-! ## Data model -/

/-- The form state created by `useState` at lines 5-22: fifteen text fields
and the consent flag. -/
structure Form where
  restaurantName : String
  contactName : String
  email : String
  phone : String
  city : String
  state : String
  website : String
  role : String
  accept : Bool
  utm_source : String
  utm_medium : String
  utm_campaign : String
  gclid : String
  fbclid : String
  ref : String
  recaptchaToken : String
  deriving DecidableEq

/-- The initial value of `form`. -/
def initialForm : Form :=
  { restaurantName := "", contactName := "", email := "", phone := "",
    city := "St. Petersburg", state := "FL", website := "", role := "Owner",
    accept := false, utm_source := "", utm_medium := "", utm_campaign := "",
    gclid := "", fbclid := "", ref := "", recaptchaToken := "" }

/-- The state `status`. -/
structure Status where
  loading : Bool
  success : Bool
  error : String
  deriving DecidableEq

/-- A value produced by `JSON.parse` or given to `JSON.stringify`.  A number is
kept as its `ToString` text; an object as its own properties in order. -/
inductive Json where
  | null : Json
  | bool (b : Bool) : Json
  | num (text : String) : Json
  | str (s : String) : Json
  | arr (items : List Json) : Json
  | obj (fields : List (String × Json)) : Json

/-- A thrown value, as far as the handler looks at it: `err?.message`. -/
structure JsError where
  message : Option String
  deriving DecidableEq

/-- What `await res.json()` gives. -/
inductive BodyResult where
  | rejected (err : JsError) : BodyResult
  | parsed (value : Json) : BodyResult

/-- What `await fetch(...)` gives: a rejection, or a response with its status
code and the outcome of reading its body as JSON. -/
inductive FetchResult where
  | rejected (err : JsError) : FetchResult
  | response (status : Nat) (body : BodyResult) : FetchResult

/-- A call of `fetch`; `body` is the value handed to `JSON.stringify`. -/
structure Request where
  url : String
  method : String
  headers : List (String × String)
  body : Json

/-- The three constants of lines 25-27. -/
structure Config where
  endpoint : String
  slackWebhook : String
  thankYouUrl : String

/-- The constant `ENDPOINT`. -/
def ENDPOINT : String := "https://payfund-backend.onrender.com/api/leads"

/-- The constant `SLACK_WEBHOOK`. -/
def SLACK_WEBHOOK : String := ""

/-- The constant `THANK_YOU_URL`. -/
def THANK_YOU_URL : String := ""

/-- The configuration written in the source. -/
def sourceConfig : Config :=
  { endpoint := ENDPOINT, slackWebhook := SLACK_WEBHOOK, thankYouUrl := THANK_YOU_URL }

/-- What the handler reads from outside: the clock (`new Date().toISOString()`),
the network (the outcome of a call of `fetch`, given the number of requests
issued before it and the request) and the engine's wording of two `TypeError`
messages: a property read on `null`, and an object that has no primitive value. -/
structure Env where
  now : String
  fetch : Nat → Request → FetchResult
  nullReadMessage : String
  convertMessage : String

/-- What the handler writes: the status, the requests issued (oldest first),
the console lines and the navigation scheduled by `setTimeout`. -/
structure World where
  status : Status
  requests : List Request
  console : List (String × JsError)
  redirect : Option (String × Nat)

/-! ## JavaScript primitives -/

/-- Truthiness of a string: `!s` holds exactly for the empty string. -/
def truthyStr (s : String) : Bool := s != ""

mutual
/-- The abstract operation `ToString` on a parsed JSON value; `none` when it
raises a `TypeError`.  An object is converted by `Object.prototype.toString`
unless an own property `toString` hides it: that property is not callable and
`valueOf` gives back the object, so the conversion fails. -/
def Json.toText : Json → Option String
  | .null => some "null"
  | .bool b => some (if b then "true" else "false")
  | .num t => some t
  | .str s => some s
  | .arr xs => Json.joinText xs
  | .obj fields => if (fields.lookup "toString").isSome then none else some "[object Object]"
/-- The operation `Array.prototype.join` with the separator `,`: `null` elements
give the empty string, the others are converted by `ToString`. -/
def Json.joinText : List Json → Option String
  | [] => some ""
  | [x] => (match x with
    | .null => some ""
    | y => Json.toText y)
  | x :: y :: xs =>
    match (match x with
      | .null => some ""
      | z => Json.toText z), Json.joinText (y :: xs) with
    | some a, some b => some (a ++ "," ++ b)
    | _, _ => none
end

/-- The abstract operation `ToBoolean` on a parsed JSON value; a number is
falsy exactly when it is zero, whose text is `0`. -/
def Json.truthy : Json → Bool
  | .null => false
  | .bool b => b
  | .num t => t != "0"
  | .str s => s != ""
  | .arr _ => true
  | .obj _ => true

/-- The property read `result.message`: a `TypeError` on `null`, the own
property of an object, `undefined` (here `none`) everywhere else. -/
def readMessage (env : Env) : Json → Except JsError (Option Json)
  | .null => .error ⟨some env.nullReadMessage⟩
  | .obj fields => .ok (fields.lookup "message")
  | _ => .ok none

/-- The value thrown by line 87, `throw new Error(result.message || fallback)`:
the `TypeError` of the property read on `null`, or the `TypeError` of a message
that cannot be converted to a string, or else the constructed `Error`, whose
message is the text of the first truthy operand of `||`. -/
def failureError (env : Env) (result : Json) (fallback : String) : JsError :=
  match readMessage env result with
  | .error err => err
  | .ok none => ⟨some fallback⟩
  | .ok (some j) =>
    if j.truthy then
      match j.toText with
      | some t => ⟨some t⟩
      | none => ⟨some env.convertMessage⟩
    else ⟨some fallback⟩

/-- The expression `err?.message || "Something went wrong. Please try again."`. -/
def caughtMessage (err : JsError) : String :=
  match err.message with
  | some m => if truthyStr m then m else "Something went wrong. Please try again."
  | none => "Something went wrong. Please try again."

/-- The getter `res.ok`: the status is in the range 200-299. -/
def statusOk (status : Nat) : Bool := 200 ≤ status && status ≤ 299

/-- Property definition on an object literal: an existing key keeps its place
and takes the new value, a new key goes to the end. -/
def setField (k : String) (v : Json) : List (String × Json) → List (String × Json)
  | [] => [(k, v)]
  | (k', v') :: rest => if k' == k then (k', v) :: rest else (k', v') :: setField k v rest

/-- The own properties of `form`, in creation order. -/
def Form.fields (f : Form) : List (String × Json) :=
  [("restaurantName", .str f.restaurantName), ("contactName", .str f.contactName),
   ("email", .str f.email), ("phone", .str f.phone), ("city", .str f.city),
   ("state", .str f.state), ("website", .str f.website), ("role", .str f.role),
   ("accept", .bool f.accept), ("utm_source", .str f.utm_source),
   ("utm_medium", .str f.utm_medium), ("utm_campaign", .str f.utm_campaign),
   ("gclid", .str f.gclid), ("fbclid", .str f.fbclid), ("ref", .str f.ref),
   ("recaptchaToken", .str f.recaptchaToken)]

/-- The object literal `{ ...form, submittedAt, location, launchStatus }`. -/
def buildPayload (env : Env) (form : Form) : List (String × Json) :=
  setField "launchStatus" (.str "Launched")
    (setField "location" (.str "St. Petersburg, FL")
      (setField "submittedAt" (.str env.now) form.fields))

/-- The request of lines 78-82. -/
def primaryRequest (cfg : Config) (env : Env) (form : Form) : Request :=
  { url := cfg.endpoint, method := "POST",
    headers := [("Content-Type", "application/json")],
    body := .obj (buildPayload env form) }

/-- The request of lines 93-99. -/
def slackRequest (cfg : Config) (form : Form) : Request :=
  { url := cfg.slackWebhook, method := "POST",
    headers := [("Content-Type", "application/json")],
    body := .obj [("text", .str ("🍽️ New Payfud signup — St. Petersburg\nRestaurant: " ++
      form.restaurantName ++ "\nContact: " ++ form.contactName ++ "\nEmail: " ++ form.email))] }

/-! ## World updates -/

/-- The call `setStatus(value)`. -/
def World.setStatus (w : World) (s : Status) : World := { w with status := s }

/-- The call `setStatus(updater)`: the updater runs on the pending state. -/
def World.updateStatus (w : World) (f : Status → Status) : World :=
  { w with status := f w.status }

/-- A call of `fetch`: the request is recorded and the environment answers. -/
def World.fetch (w : World) (env : Env) (req : Request) : World × FetchResult :=
  ({ w with requests := w.requests ++ [req] }, env.fetch w.requests.length req)

/-- A call of `console.log` or `console.error` with a label and an error. -/
def World.print (w : World) (label : String) (err : JsError) : World :=
  { w with console := w.console ++ [(label, err)] }

/-- The call `setTimeout(() => window.location.assign(url), ms)`. -/
def World.schedule (w : World) (url : String) (ms : Nat) : World :=
  { w with redirect := some (url, ms) }

/-! ## The handler -/

/-- The optional Slack notification, lines 91-103, with its own `try`/`catch`. -/
def notifySlack (cfg : Config) (env : Env) (form : Form) (w : World) : World :=
  if truthyStr cfg.slackWebhook then
    match w.fetch env (slackRequest cfg form) with
    | (w1, .rejected slackError) => w1.print "Slack notification failed:" slackError
    | (w1, .response _ _) => w1
  else w

/-- The body of the outer `try`, lines 71-111: the world it leaves and whether
it completed or threw. -/
def submitBody (cfg : Config) (env : Env) (form : Form) (w : World) :
    World × Except JsError Unit :=
  match w.fetch env (primaryRequest cfg env form) with
  | (w1, .rejected err) => (w1, .error err)
  | (w1, .response _ (.rejected err)) => (w1, .error err)
  | (w1, .response status (.parsed result)) =>
    if !statusOk status then
      (w1, .error (failureError env result ("Request failed: " ++ toString status)))
    else
      let w2 := notifySlack cfg env form w1
      let w3 := w2.setStatus { loading := false, success := true, error := "" }
      let w4 := if truthyStr cfg.thankYouUrl then w3.schedule cfg.thankYouUrl 2000 else w3
      (w4, .ok ())

/-- The function `handleSubmit`, lines 51-121: the world after the handler has
run to its end, and how its promise settles.  The call `e.preventDefault()`
touches none of the modelled state and is left out. -/
def handleSubmit (cfg : Config) (env : Env) (form : Form) (w : World) :
    World × Except JsError Unit :=
  let w0 := w.setStatus { loading := false, success := false, error := "" }
  if !truthyStr form.restaurantName || !truthyStr form.contactName || !truthyStr form.email then
    (w0.updateStatus (fun s =>
      { s with error := "Please fill in restaurant name, your name, and email." }), .ok ())
  else if !validateEmail form.email then
    (w0.updateStatus (fun s => { s with error := "Please enter a valid email address." }), .ok ())
  else if truthyStr form.website && !testScheme form.website then
    (w0.updateStatus (fun s =>
      { s with error := "Website should start with http:// or https://" }), .ok ())
  else if !form.accept then
    (w0.updateStatus (fun s => { s with error := "Please agree to be contacted." }), .ok ())
  else
    let w1 := w0.setStatus { loading := true, success := false, error := "" }
    match submitBody cfg env form w1 with
    | (w2, .ok ()) => (w2, .ok ())
    | (w2, .error err) =>
      let w3 := w2.print "Form submission error:" err
      (w3.setStatus { loading := false, success := false, error := caughtMessage err }, .ok ())

/-! ## The words of the specification -/

/-- A character that is neither whitespace nor `@`. -/
def PlainChar (c : Char) : Prop := isJsSpace c = false ∧ c ≠ '@'

instance : DecidablePred PlainChar :=
  fun c => inferInstanceAs (Decidable (isJsSpace c = false ∧ c ≠ '@'))

/-- The test of `PlainChar` as a function to `Bool`. -/
def isPlain (c : Char) : Bool := decide (PlainChar c)

/-- One or more characters, none of them whitespace or `@`. -/
def PlainRun (u : List Char) : Prop := u ≠ [] ∧ ∀ c ∈ u, PlainChar c

/-- The string as a whole has the form X@Y.Z with X, Y and Z plain runs. -/
def EmailShape (u : List Char) : Prop :=
  ∃ X Y Z, u = X ++ '@' :: (Y ++ '.' :: Z) ∧ PlainRun X ∧ PlainRun Y ∧ PlainRun Z

/-- Some substring of the string has the form X@Y.Z. -/
def ContainsEmailShape (u : List Char) : Prop :=
  ∃ p m q, u = p ++ (m ++ q) ∧ EmailShape m

/-- Some `@` of the string comes right after a plain character and is followed
by a maximal run of plain characters holding a `.` that is neither the first
nor the last character of that run. -/
def AtWithDottedRun (u : List Char) : Prop :=
  ∃ i c, u[i]? = some c ∧ PlainChar c ∧ u[i + 1]? = some '@' ∧
    ∃ j, 0 < j ∧ j + 1 < ((u.drop (i + 2)).takeWhile isPlain).length ∧
      ((u.drop (i + 2)).takeWhile isPlain)[j]? = some '.'

/-- The string begins with `http://` or with `https://`, letter case ignored. -/
def HasHttpScheme (u : List Char) : Prop :=
  (u.take 7).map Char.toLower = ['h', 't', 't', 'p', ':', '/', '/'] ∨
    (u.take 8).map Char.toLower = ['h', 't', 't', 'p', 's', ':', '/', '/']

/-- Precondition 1: the three required fields are non-empty. -/
abbrev Pre1 (f : Form) : Prop := f.restaurantName ≠ "" ∧ f.contactName ≠ "" ∧ f.email ≠ ""

/-- Precondition 2: the email passes `validateEmail`. -/
abbrev Pre2 (f : Form) : Prop := validateEmail f.email = true

/-- Precondition 3: the website is empty or begins with an http scheme. -/
abbrev Pre3 (f : Form) : Prop := f.website = "" ∨ HasHttpScheme f.website.toList

/-- Precondition 4: consent is given. -/
abbrev Pre4 (f : Form) : Prop := f.accept = true

/-- All four preconditions hold. -/
abbrev Valid (f : Form) : Prop := Pre1 f ∧ Pre2 f ∧ Pre3 f ∧ Pre4 f

instance (u : List Char) : Decidable (HasHttpScheme u) :=
  inferInstanceAs (Decidable
    ((u.take 7).map Char.toLower = ['h', 't', 't', 'p', ':', '/', '/'] ∨
      (u.take 8).map Char.toLower = ['h', 't', 't', 'p', 's', ':', '/', '/']))

/-- The message of the lowest-numbered precondition that fails. -/
def firstFailure (f : Form) : String :=
  if ¬ Pre1 f then "Please fill in restaurant name, your name, and email."
  else if ¬ Pre2 f then "Please enter a valid email address."
  else if ¬ Pre3 f then "Website should start with http:// or https://"
  else "Please agree to be contacted."

/-- The submission stops at the validation gate with the message `m`: the
status ends as the error status carrying `m` and no request has been issued. -/
def RejectedWith (cfg : Config) (env : Env) (f : Form) (w : World) (m : String) : Prop :=
  (handleSubmit cfg env f w).1.status = { loading := false, success := false, error := m } ∧
    (handleSubmit cfg env f w).1.requests = w.requests

/-- The status before any submission. -/
def idleStatus : Status := { loading := false, success := false, error := "" }

/-- A world in which nothing has happened yet. -/
def idleWorld : World :=
  { status := idleStatus, requests := [], console := [], redirect := none }

/-- A form that passes the four preconditions. -/
def sampleForm : Form :=
  { initialForm with
    restaurantName := "Cafe", contactName := "Ann", email := "a@b.co",
    website := "https://cafe.example", accept := true }

/-- The sample form without consent. -/
def noConsentForm : Form := { sampleForm with accept := false }

/-- The sample form with an email that has no `@`. -/
def badEmailForm : Form := { sampleForm with email := "abc" }

/-- The sample form with a website that has no scheme. -/
def badWebsiteForm : Form := { sampleForm with website := "cafe.example" }

/-- The sample form with an email that holds a space before an address. -/
def spacedForm : Form := { sampleForm with email := "a b@c.d" }

/-- A configuration with a Slack webhook. -/
def slackConfig : Config := { sourceConfig with slackWebhook := "https://hooks.slack.example/T0" }

/-- An environment whose first call succeeds and whose later calls throw. -/
def slackDownEnv : Env :=
  { now := "2024-01-01T00:00:00.000Z",
    fetch := fun n _ =>
      if n = 0 then .response 200 (.parsed (.obj [])) else .rejected ⟨some "Failed to fetch"⟩,
    nullReadMessage := "Cannot read properties of null (reading 'message')",
    convertMessage := "Cannot convert object to primitive value" }

/-- An environment whose network answers every call with the given result. -/
def constEnv (r : FetchResult) : Env :=
  { now := "2024-01-01T00:00:00.000Z", fetch := fun _ _ => r,
    nullReadMessage := "Cannot read properties of null (reading 'message')",
    convertMessage := "Cannot convert object to primitive value" }

end Payfud

namespace Payfud

/-! ## The regular expression engine computes the denoted language -/

namespace Pattern

theorem matches_never (u : List Char) : ¬ Matches never u := by
  intro h
  cases h

theorem matches_empty_iff (u : List Char) : Matches empty u ↔ u = [] := by
  constructor
  · intro h
    cases h
    rfl
  · rintro rfl
    exact Matches.empty

theorem matches_cls_iff (p : Char → Bool) (u : List Char) :
    Matches (cls p) u ↔ ∃ c, u = [c] ∧ p c = true := by
  constructor
  · intro h
    cases h with
    | cls _ c hc => exact ⟨c, rfl, hc⟩
  · rintro ⟨c, rfl, hc⟩
    exact Matches.cls p c hc

theorem matches_seq_iff (r s : Pattern) (u : List Char) :
    Matches (seq r s) u ↔ ∃ a b, u = a ++ b ∧ Matches r a ∧ Matches s b := by
  constructor
  · intro h
    cases h with
    | seq _ _ a b ha hb => exact ⟨a, b, rfl, ha, hb⟩
  · rintro ⟨a, b, rfl, ha, hb⟩
    exact Matches.seq r s a b ha hb

theorem matches_alt_iff (r s : Pattern) (u : List Char) :
    Matches (alt r s) u ↔ Matches r u ∨ Matches s u := by
  constructor
  · intro h
    cases h with
    | altL _ _ _ h1 => exact Or.inl h1
    | altR _ _ _ h1 => exact Or.inr h1
  · rintro (h | h)
    · exact Matches.altL r s u h
    · exact Matches.altR r s u h

theorem nullable_iff (r : Pattern) : nullable r = true ↔ Matches r [] := by
  induction r with
  | never => simp [nullable, matches_never]
  | empty => simp [nullable, matches_empty_iff]
  | cls p => simp [nullable, matches_cls_iff]
  | seq r s ihr ihs =>
    simp only [nullable, Bool.and_eq_true, ihr, ihs, matches_seq_iff]
    constructor
    · rintro ⟨h1, h2⟩
      exact ⟨[], [], rfl, h1, h2⟩
    · rintro ⟨a, b, hab, h1, h2⟩
      have hab' := hab.symm
      rw [List.append_eq_nil] at hab'
      obtain ⟨rfl, rfl⟩ := hab'
      exact ⟨h1, h2⟩
  | alt r s ihr ihs => simp [nullable, ihr, ihs, matches_alt_iff]
  | star r _ => simp [nullable, Matches.starNil]

theorem star_cons_inv (r : Pattern) (c : Char) (t : List Char)
    (h : Matches (star r) (c :: t)) :
    ∃ a b, t = a ++ b ∧ Matches r (c :: a) ∧ Matches (star r) b := by
  generalize hR : star r = R at h
  generalize hw : c :: t = w at h
  induction h with
  | empty => cases hR
  | cls _ _ _ => cases hR
  | seq _ _ _ _ _ _ _ _ => cases hR
  | altL _ _ _ _ _ => cases hR
  | altR _ _ _ _ _ => cases hR
  | starNil _ => cases hw
  | starCons r0 u v hu hv _ ihv =>
    cases hR
    cases u with
    | nil => exact ihv rfl (by simpa using hw)
    | cons d u1 =>
      simp only [List.cons_append, List.cons.injEq] at hw
      obtain ⟨rfl, rfl⟩ := hw
      exact ⟨u1, v, rfl, hu, hv⟩

theorem deriv_iff (r : Pattern) (c : Char) (t : List Char) :
    Matches (deriv r c) t ↔ Matches r (c :: t) := by
  induction r generalizing t with
  | never => simp [deriv, matches_never]
  | empty => simp [deriv, matches_never, matches_empty_iff]
  | cls p =>
    by_cases hp : p c = true
    · simp only [deriv, hp, if_true, matches_empty_iff, matches_cls_iff]
      constructor
      · rintro rfl
        exact ⟨c, rfl, hp⟩
      · rintro ⟨d, hd, _⟩
        simp only [List.cons.injEq] at hd
        exact hd.2
    · simp only [deriv, hp, matches_cls_iff]
      simp only [Bool.false_eq_true, if_false]
      constructor
      · intro h
        exact absurd h (matches_never t)
      · rintro ⟨d, hd, hpd⟩
        simp only [List.cons.injEq] at hd
        rw [← hd.1] at hpd
        exact absurd hpd hp
  | seq r s ihr ihs =>
    have key : Matches (seq r s) (c :: t) ↔
        (∃ a b, t = a ++ b ∧ Matches r (c :: a) ∧ Matches s b) ∨
          (Matches r [] ∧ Matches s (c :: t)) := by
      rw [matches_seq_iff]
      constructor
      · rintro ⟨a, b, hab, ha, hb⟩
        cases a with
        | nil =>
          simp only [List.nil_append] at hab
          rw [← hab] at hb
          exact Or.inr ⟨ha, hb⟩
        | cons d a1 =>
          simp only [List.cons_append, List.cons.injEq] at hab
          obtain ⟨rfl, rfl⟩ := hab
          exact Or.inl ⟨a1, b, rfl, ha, hb⟩
      · rintro (⟨a, b, rfl, ha, hb⟩ | ⟨ha, hb⟩)
        · exact ⟨c :: a, b, rfl, ha, hb⟩
        · exact ⟨[], c :: t, rfl, ha, hb⟩
    rw [key]
    by_cases hn : nullable r = true
    · simp only [deriv, hn, if_true, matches_alt_iff, matches_seq_iff, ihr, ihs]
      rw [nullable_iff] at hn
      simp [hn]
    · have hn' : nullable r = false := by simpa using hn
      simp only [deriv, hn', Bool.false_eq_true, if_false, matches_seq_iff, ihr]
      rw [nullable_iff] at hn
      simp [hn]
  | alt r s ihr ihs => simp [deriv, matches_alt_iff, ihr, ihs]
  | star r ihr =>
    simp only [deriv, matches_seq_iff, ihr]
    constructor
    · rintro ⟨a, b, rfl, ha, hb⟩
      exact Matches.starCons r (c :: a) b ha hb
    · intro h
      exact star_cons_inv r c t h

theorem matchAtStart_iff (r : Pattern) (u : List Char) :
    matchAtStart r u = true ↔ ∃ m q, u = m ++ q ∧ Matches r m := by
  induction u generalizing r with
  | nil =>
    simp only [matchAtStart, nullable_iff]
    constructor
    · intro h
      exact ⟨[], [], rfl, h⟩
    · rintro ⟨m, q, hmq, hm⟩
      have h2 := hmq.symm
      rw [List.append_eq_nil] at h2
      rw [h2.1] at hm
      exact hm
  | cons c cs ih =>
    simp only [matchAtStart, Bool.or_eq_true, nullable_iff, ih, deriv_iff]
    constructor
    · rintro (h | ⟨m, q, rfl, hm⟩)
      · exact ⟨[], c :: cs, rfl, h⟩
      · exact ⟨c :: m, q, rfl, hm⟩
    · rintro ⟨m, q, hmq, hm⟩
      cases m with
      | nil => exact Or.inl hm
      | cons d m1 =>
        simp only [List.cons_append, List.cons.injEq] at hmq
        obtain ⟨rfl, rfl⟩ := hmq
        exact Or.inr ⟨m1, q, rfl, hm⟩

theorem test_iff (r : Pattern) (u : List Char) :
    test r u = true ↔ ∃ p m q, u = p ++ (m ++ q) ∧ Matches r m := by
  induction u with
  | nil =>
    simp only [test, matchAtStart_iff]
    constructor
    · rintro ⟨m, q, hmq, hm⟩
      exact ⟨[], m, q, hmq, hm⟩
    · rintro ⟨p, m, q, hpmq, hm⟩
      have h2 := hpmq.symm
      rw [List.append_eq_nil] at h2
      exact ⟨m, q, h2.2.symm, hm⟩
  | cons c cs ih =>
    simp only [test, Bool.or_eq_true, matchAtStart_iff, ih]
    constructor
    · rintro (⟨m, q, hmq, hm⟩ | ⟨p, m, q, rfl, hm⟩)
      · exact ⟨[], m, q, hmq, hm⟩
      · exact ⟨c :: p, m, q, rfl, hm⟩
    · rintro ⟨p, m, q, hpmq, hm⟩
      cases p with
      | nil => exact Or.inl ⟨m, q, hpmq, hm⟩
      | cons d p1 =>
        simp only [List.cons_append, List.cons.injEq] at hpmq
        exact Or.inr ⟨p1, m, q, hpmq.2, hm⟩

end Pattern

end Payfud

namespace Payfud

/-! ## Letter case -/

theorem toNat_inj (c d : Char) : c = d ↔ c.toNat = d.toNat := by
  constructor
  · rintro rfl
    rfl
  · intro h
    apply Char.ext
    apply UInt32.ext
    exact h

theorem toNat_ofNat_small (k : Nat) (h : k < 0xd800) : (Char.ofNat k).toNat = k := by
  have hv : k.isValidChar := Or.inl h
  simp only [Char.ofNat, hv, dite_true]
  rfl

theorem toUpper_toNat (c : Char) :
    c.toUpper.toNat = if 97 ≤ c.toNat ∧ c.toNat ≤ 122 then c.toNat - 32 else c.toNat := by
  unfold Char.toUpper
  simp only [ge_iff_le]
  split
  · rw [toNat_ofNat_small _ (by omega)]
  · rfl

theorem toLower_toNat (c : Char) :
    c.toLower.toNat = if 65 ≤ c.toNat ∧ c.toNat ≤ 90 then c.toNat + 32 else c.toNat := by
  unfold Char.toLower
  simp only [ge_iff_le]
  split
  · rw [toNat_ofNat_small _ (by omega)]
  · rfl

/-- Upper-casing and lower-casing identify the same pairs of characters. -/
theorem fold_agree (c a : Char) : c.toUpper = a.toUpper ↔ c.toLower = a.toLower := by
  rw [toNat_inj, toNat_inj (c.toLower), toUpper_toNat, toUpper_toNat, toLower_toNat,
    toLower_toNat]
  split <;> split <;> split <;> split <;> omega

/-! ## The scheme test -/

namespace Pattern

theorem matchAtStart_cls_nil (p : Char → Bool) : matchAtStart (cls p) [] = false := rfl

theorem matchAtStart_cls_cons (p : Char → Bool) (c : Char) (cs : List Char) :
    matchAtStart (cls p) (c :: cs) = p c := by
  rw [Bool.eq_iff_iff, matchAtStart_iff]
  constructor
  · rintro ⟨m, q, hmq, hm⟩
    rw [matches_cls_iff] at hm
    obtain ⟨d, rfl, hd⟩ := hm
    simp only [List.singleton_append, List.cons.injEq] at hmq
    rw [hmq.1]
    exact hd
  · intro h
    exact ⟨[c], cs, rfl, Matches.cls p c h⟩

theorem matchAtStart_seq_cls_nil (p : Char → Bool) (r : Pattern) :
    matchAtStart (seq (cls p) r) [] = false := rfl

theorem matchAtStart_seq_cls_cons (p : Char → Bool) (r : Pattern) (c : Char)
    (cs : List Char) :
    matchAtStart (seq (cls p) r) (c :: cs) = (p c && matchAtStart r cs) := by
  rw [Bool.eq_iff_iff, Bool.and_eq_true, matchAtStart_iff, matchAtStart_iff]
  constructor
  · rintro ⟨m, q, hmq, hm⟩
    rw [matches_seq_iff] at hm
    obtain ⟨a, b, rfl, ha, hb⟩ := hm
    rw [matches_cls_iff] at ha
    obtain ⟨d, rfl, hd⟩ := ha
    simp only [List.singleton_append, List.cons_append, List.cons.injEq] at hmq
    obtain ⟨rfl, rfl⟩ := hmq
    exact ⟨hd, b, q, rfl, hb⟩
  · rintro ⟨hc, m, q, rfl, hm⟩
    exact ⟨c :: m, q, rfl, Matches.seq (cls p) r [c] m (Matches.cls p c hc) hm⟩

theorem matchAtStart_seq_opt (s r : Pattern) (u : List Char) :
    matchAtStart (seq (opt s) r) u = (matchAtStart (seq s r) u || matchAtStart r u) := by
  rw [Bool.eq_iff_iff, Bool.or_eq_true, matchAtStart_iff, matchAtStart_iff, matchAtStart_iff]
  constructor
  · rintro ⟨m, q, rfl, hm⟩
    rw [matches_seq_iff] at hm
    obtain ⟨a, b, rfl, ha, hb⟩ := hm
    unfold opt at ha
    rw [matches_alt_iff, matches_empty_iff] at ha
    rcases ha with ha | rfl
    · exact Or.inl ⟨a ++ b, q, rfl, Matches.seq s r a b ha hb⟩
    · exact Or.inr ⟨b, q, rfl, hb⟩
  · rintro (⟨m, q, rfl, hm⟩ | ⟨m, q, rfl, hm⟩)
    · rw [matches_seq_iff] at hm
      obtain ⟨a, b, rfl, ha, hb⟩ := hm
      exact ⟨a ++ b, q, rfl, Matches.seq (opt s) r a b (Matches.altL s empty a ha) hb⟩
    · exact ⟨m, q, rfl, Matches.seq (opt s) r [] m (Matches.altR s empty [] Matches.empty) hm⟩

end Pattern

/-- The scheme test accepts exactly the strings that begin with `http://` or
`https://`, letter case ignored. -/
theorem testScheme_iff (w : String) : testScheme w = true ↔ HasHttpScheme w.toList := by
  unfold testScheme HasHttpScheme schemePattern litI
  generalize w.toList = u
  have e1 : ∀ c : Char, (c.toUpper = 'h'.toUpper) ↔ c.toLower = 'h' := fun c => fold_agree c 'h'
  have e2 : ∀ c : Char, (c.toUpper = 't'.toUpper) ↔ c.toLower = 't' := fun c => fold_agree c 't'
  have e3 : ∀ c : Char, (c.toUpper = 'p'.toUpper) ↔ c.toLower = 'p' := fun c => fold_agree c 'p'
  have e4 : ∀ c : Char, (c.toUpper = 's'.toUpper) ↔ c.toLower = 's' := fun c => fold_agree c 's'
  have e5 : ∀ c : Char, (c.toUpper = ':'.toUpper) ↔ c.toLower = ':' := fun c => fold_agree c ':'
  have e6 : ∀ c : Char, (c.toUpper = '/'.toUpper) ↔ c.toLower = '/' := fun c => fold_agree c '/'
  rcases u with _ | ⟨c1, _ | ⟨c2, _ | ⟨c3, _ | ⟨c4, _ | ⟨c5, _ | ⟨c6, _ | ⟨c7, _ | ⟨c8, u⟩⟩⟩⟩⟩⟩⟩⟩ <;>
    simp only [Pattern.matchAtStart_seq_cls_nil, Pattern.matchAtStart_seq_cls_cons,
      Pattern.matchAtStart_seq_opt, Pattern.matchAtStart_cls_nil,
      Pattern.matchAtStart_cls_cons, Bool.and_eq_true, Bool.or_eq_true, beq_iff_eq,
      e1, e2, e3, e4, e5, e6, List.take, List.map, List.cons.injEq, Bool.and_false,
      Bool.false_eq_true, and_false, false_and, or_false, false_or, and_true, reduceCtorEq,
      Bool.or_false, Bool.false_or]
  tauto

end Payfud

namespace Payfud

/-! ## The email test -/

theorem notSpaceAt_iff (c : Char) : notSpaceAt c = true ↔ PlainChar c := by
  simp [notSpaceAt, PlainChar]

namespace Pattern

theorem star_cls_all (p : Char → Bool) (u : List Char) (h : Matches (star (cls p)) u) :
    ∀ c ∈ u, p c = true := by
  generalize hR : star (cls p) = R at h
  induction h with
  | empty => cases hR
  | cls _ _ _ => cases hR
  | seq _ _ _ _ _ _ _ _ => cases hR
  | altL _ _ _ _ _ => cases hR
  | altR _ _ _ _ _ => cases hR
  | starNil _ => simp
  | starCons r0 a b ha _ _ ihb =>
    cases hR
    rw [matches_cls_iff] at ha
    obtain ⟨d, rfl, hd⟩ := ha
    intro c hc
    simp only [List.singleton_append, List.mem_cons] at hc
    rcases hc with rfl | hc
    · exact hd
    · exact ihb rfl c hc

theorem matches_star_cls_iff (p : Char → Bool) (u : List Char) :
    Matches (star (cls p)) u ↔ ∀ c ∈ u, p c = true := by
  constructor
  · exact star_cls_all p u
  · intro h
    induction u with
    | nil => exact Matches.starNil _
    | cons c t ih =>
      have ht : Matches (star (cls p)) t := ih (fun d hd => h d (List.mem_cons_of_mem c hd))
      exact Matches.starCons (cls p) [c] t (Matches.cls p c (h c (List.mem_cons_self c t))) ht

theorem matches_plus_cls_iff (p : Char → Bool) (u : List Char) :
    Matches (plus (cls p)) u ↔ u ≠ [] ∧ ∀ c ∈ u, p c = true := by
  unfold plus
  rw [matches_seq_iff]
  constructor
  · rintro ⟨a, b, rfl, ha, hb⟩
    rw [matches_cls_iff] at ha
    obtain ⟨d, rfl, hd⟩ := ha
    rw [matches_star_cls_iff] at hb
    refine ⟨by simp, ?_⟩
    intro c hc
    simp only [List.singleton_append, List.mem_cons] at hc
    rcases hc with rfl | hc
    · exact hd
    · exact hb c hc
  · rintro ⟨hne, hall⟩
    cases u with
    | nil => exact absurd rfl hne
    | cons c t =>
      refine ⟨[c], t, rfl, Matches.cls p c (hall c (List.mem_cons_self c t)), ?_⟩
      rw [matches_star_cls_iff]
      exact fun d hd => hall d (List.mem_cons_of_mem c hd)

theorem matches_plus_plain_iff (u : List Char) :
    Matches (plus (cls notSpaceAt)) u ↔ PlainRun u := by
  rw [matches_plus_cls_iff]
  unfold PlainRun
  simp only [notSpaceAt_iff]

theorem matches_lit_iff (a : Char) (u : List Char) : Matches (lit a) u ↔ u = [a] := by
  unfold lit
  rw [matches_cls_iff]
  constructor
  · rintro ⟨c, rfl, hc⟩
    rw [beq_iff_eq] at hc
    rw [hc]
  · rintro rfl
    exact ⟨a, rfl, by simp⟩

/-- The email pattern denotes exactly the strings of the form X@Y.Z. -/
theorem matches_email_iff (u : List Char) : Matches emailPattern u ↔ EmailShape u := by
  unfold emailPattern EmailShape
  simp only [matches_seq_iff, matches_plus_plain_iff, matches_lit_iff]
  constructor
  · rintro ⟨X, _, rfl, hX, _, _, rfl, rfl, Y, _, rfl, hY, _, Z, rfl, rfl, hZ⟩
    exact ⟨X, Y, Z, by simp, hX, hY, hZ⟩
  · rintro ⟨X, Y, Z, rfl, hX, hY, hZ⟩
    exact ⟨X, _, rfl, hX, ['@'], _, rfl, rfl, Y, _, rfl, hY, ['.'], Z, rfl, rfl, hZ⟩

end Pattern

/-- The email test accepts exactly the strings with a substring of the form
X@Y.Z. -/
theorem validateEmail_iff (s : String) :
    validateEmail s = true ↔ ContainsEmailShape s.toList := by
  unfold validateEmail ContainsEmailShape
  rw [Pattern.test_iff]
  simp only [Pattern.matches_email_iff]

end Payfud

namespace Payfud

/-! ## The two readings of "contains X@Y.Z" agree -/

theorem drop_of_getElem {α : Type} (l : List α) (n : Nat) (a : α) (h : l[n]? = some a) :
    l.drop n = a :: l.drop (n + 1) := by
  rw [List.getElem?_eq_some_iff] at h
  obtain ⟨hn, rfl⟩ := h
  exact List.drop_eq_getElem_cons hn

theorem getElem_at_length {α : Type} (A B : List α) (a : α) :
    (A ++ a :: B)[A.length]? = some a := by
  rw [List.getElem?_append_right (Nat.le_refl _), Nat.sub_self]
  exact List.getElem?_cons_zero

theorem run_of_split (P Y Z q : List Char) (x : Char) (hx : PlainChar x)
    (hY : PlainRun Y) (hZ : PlainRun Z) :
    AtWithDottedRun (P ++ x :: '@' :: (Y ++ '.' :: (Z ++ q))) := by
  have hYall : ∀ a ∈ Y, isPlain a = true := fun a ha => decide_eq_true (hY.2 a ha)
  have hZall : ∀ a ∈ Z, isPlain a = true := fun a ha => decide_eq_true (hZ.2 a ha)
  have hdot : isPlain '.' = true := by decide
  have hdrop : (P ++ x :: '@' :: (Y ++ '.' :: (Z ++ q))).drop (P.length + 2) =
      Y ++ '.' :: (Z ++ q) := by
    have e : P ++ x :: '@' :: (Y ++ '.' :: (Z ++ q)) = (P ++ [x, '@']) ++ (Y ++ '.' :: (Z ++ q)) := by
      simp
    rw [e]
    exact List.drop_left' (by simp)
  have hrun : (Y ++ '.' :: (Z ++ q)).takeWhile isPlain =
      Y ++ '.' :: (Z ++ q.takeWhile isPlain) := by
    rw [List.takeWhile_append_of_pos hYall, List.takeWhile_cons, if_pos hdot,
      List.takeWhile_append_of_pos hZall]
  have hZlen : 0 < Z.length := List.length_pos.2 hZ.1
  have hYlen : 0 < Y.length := List.length_pos.2 hY.1
  refine ⟨P.length, x, getElem_at_length P _ x, hx, ?_, Y.length, hYlen, ?_, ?_⟩
  · have e : P ++ x :: '@' :: (Y ++ '.' :: (Z ++ q)) = (P ++ [x]) ++ '@' :: (Y ++ '.' :: (Z ++ q)) := by
      simp
    rw [e, List.getElem?_append_right (by simp)]
    simp
  · rw [hdrop, hrun]
    simp only [List.length_append, List.length_cons]
    omega
  · rw [hdrop, hrun]
    exact getElem_at_length Y _ '.'

theorem contains_imp_run (u : List Char) (h : ContainsEmailShape u) : AtWithDottedRun u := by
  obtain ⟨p, m, q, rfl, X, Y, Z, rfl, hX, hY, hZ⟩ := h
  rcases List.eq_nil_or_concat X with hnil | ⟨L, x, rfl⟩
  · exact absurd hnil hX.1
  · have hx : PlainChar x := hX.2 x (by simp)
    have e : p ++ ((L.concat x ++ '@' :: (Y ++ '.' :: Z)) ++ q) =
        (p ++ L) ++ x :: '@' :: (Y ++ '.' :: (Z ++ q)) := by
      simp
    rw [e]
    exact run_of_split (p ++ L) Y Z q x hx hY hZ

theorem run_imp_contains (u : List Char) (h : AtWithDottedRun u) : ContainsEmailShape u := by
  obtain ⟨i, c, hi, hc, hat, j, hj0, hj1, hdot⟩ := h
  obtain ⟨R, hR⟩ : ∃ R, R = (u.drop (i + 2)).takeWhile isPlain :=
    ⟨_, rfl⟩
  rw [← hR] at hj1 hdot
  have h1 : u.drop i = c :: u.drop (i + 1) := drop_of_getElem u i c hi
  have h2 : u.drop (i + 1) = '@' :: u.drop (i + 1 + 1) := drop_of_getElem u (i + 1) '@' hat
  have h3 : u.drop (i + 2) =
      R ++ (u.drop (i + 2)).dropWhile isPlain := by
    rw [hR]
    exact (List.takeWhile_append_dropWhile isPlain
      (u.drop (i + 2))).symm
  have h4 : R.drop j = '.' :: R.drop (j + 1) := drop_of_getElem R j '.' hdot
  have hRall : ∀ a ∈ R, PlainChar a := by
    intro a ha
    rw [hR] at ha
    have hp : isPlain a = true := List.mem_takeWhile_imp ha
    exact of_decide_eq_true hp
  have hY : PlainRun (R.take j) := by
    refine ⟨?_, fun a ha => hRall a (List.mem_of_mem_take ha)⟩
    intro hnil
    have hl := congrArg List.length hnil
    simp only [List.length_take, List.length_nil] at hl
    omega
  have hZ : PlainRun (R.drop (j + 1)) := by
    refine ⟨?_, fun a ha => hRall a (List.mem_of_mem_drop ha)⟩
    intro hnil
    have hl := congrArg List.length hnil
    simp only [List.length_drop, List.length_nil] at hl
    omega
  have hX : PlainRun [c] := by
    refine ⟨by simp, ?_⟩
    intro a ha
    simp only [List.mem_singleton] at ha
    rw [ha]
    exact hc
  refine ⟨u.take i, [c] ++ '@' :: (R.take j ++ '.' :: R.drop (j + 1)),
    (u.drop (i + 2)).dropWhile isPlain, ?_, [c], R.take j,
    R.drop (j + 1), rfl, hX, hY, hZ⟩
  have hRs : R.take j ++ '.' :: R.drop (j + 1) = R := by
    rw [← h4]
    exact List.take_append_drop j R
  rw [hRs]
  calc u = u.take i ++ u.drop i := (List.take_append_drop i u).symm
    _ = u.take i ++ (c :: '@' :: u.drop (i + 2)) := by rw [h1, h2]
    _ = u.take i ++
        ([c] ++ '@' :: R ++ (u.drop (i + 2)).dropWhile isPlain) := by
      rw [List.singleton_append, List.cons_append, List.cons_append, ← h3]

end Payfud

namespace Payfud

/-! ## The validation gate -/

theorem truthyStr_iff (s : String) : truthyStr s = true ↔ s ≠ "" := by
  simp [truthyStr]

theorem gate1_iff (f : Form) :
    (!truthyStr f.restaurantName || !truthyStr f.contactName || !truthyStr f.email) = true ↔
      ¬ Pre1 f := by
  simp only [Bool.or_eq_true, Bool.not_eq_true', ← Bool.not_eq_true, truthyStr_iff]
  tauto

theorem gate3_iff (f : Form) :
    (truthyStr f.website && !testScheme f.website) = true ↔ ¬ Pre3 f := by
  simp only [Bool.and_eq_true, Bool.not_eq_true', ← Bool.not_eq_true, truthyStr_iff,
    testScheme_iff]
  tauto

theorem handleSubmit_reject1 (cfg : Config) (env : Env) (f : Form) (w : World)
    (h : ¬ Pre1 f) :
    handleSubmit cfg env f w =
      ({ w with status := { loading := false, success := false,
                            error := "Please fill in restaurant name, your name, and email." } },
        .ok ()) := by
  unfold handleSubmit
  simp only [(gate1_iff f).2 h, if_true, World.setStatus, World.updateStatus]

theorem handleSubmit_reject2 (cfg : Config) (env : Env) (f : Form) (w : World)
    (h1 : Pre1 f) (h2 : ¬ Pre2 f) :
    handleSubmit cfg env f w =
      ({ w with status := { loading := false, success := false,
                            error := "Please enter a valid email address." } }, .ok ()) := by
  have g1 : ¬ ((!truthyStr f.restaurantName || !truthyStr f.contactName ||
      !truthyStr f.email) = true) := fun hg => (gate1_iff f).1 hg h1
  have g2 : (!validateEmail f.email) = true := by simpa using h2
  unfold handleSubmit
  simp only [g1, g2, if_true, if_false, Bool.false_eq_true, World.setStatus, World.updateStatus]

theorem handleSubmit_reject3 (cfg : Config) (env : Env) (f : Form) (w : World)
    (h1 : Pre1 f) (h2 : Pre2 f) (h3 : ¬ Pre3 f) :
    handleSubmit cfg env f w =
      ({ w with status := { loading := false, success := false,
                            error := "Website should start with http:// or https://" } },
        .ok ()) := by
  have g1 : ¬ ((!truthyStr f.restaurantName || !truthyStr f.contactName ||
      !truthyStr f.email) = true) := fun hg => (gate1_iff f).1 hg h1
  have g2 : ¬ ((!validateEmail f.email) = true) := by simpa using h2
  unfold handleSubmit
  simp only [g1, g2, (gate3_iff f).2 h3, if_true, if_false, Bool.false_eq_true, World.setStatus,
    World.updateStatus]

theorem handleSubmit_reject4 (cfg : Config) (env : Env) (f : Form) (w : World)
    (h1 : Pre1 f) (h2 : Pre2 f) (h3 : Pre3 f) (h4 : ¬ Pre4 f) :
    handleSubmit cfg env f w =
      ({ w with status := { loading := false, success := false,
                            error := "Please agree to be contacted." } }, .ok ()) := by
  have g1 : ¬ ((!truthyStr f.restaurantName || !truthyStr f.contactName ||
      !truthyStr f.email) = true) := fun hg => (gate1_iff f).1 hg h1
  have g2 : ¬ ((!validateEmail f.email) = true) := by simpa using h2
  have g3 : ¬ ((truthyStr f.website && !testScheme f.website) = true) :=
    fun hg => (gate3_iff f).1 hg h3
  have g4 : (!f.accept) = true := by simpa using h4
  unfold handleSubmit
  simp only [g1, g2, g3, g4, if_true, if_false, Bool.false_eq_true, World.setStatus, World.updateStatus]

/-- Past the gate the handler is the `try` body run from the loading status,
followed by the `catch` clause. -/
theorem handleSubmit_valid (cfg : Config) (env : Env) (f : Form) (w : World)
    (h : Valid f) :
    handleSubmit cfg env f w =
      match submitBody cfg env f
          { w with status := { loading := true, success := false, error := "" } } with
      | (w2, .ok ()) => (w2, .ok ())
      | (w2, .error err) =>
        ({ w2 with
            status := { loading := false, success := false, error := caughtMessage err },
            console := w2.console ++ [("Form submission error:", err)] }, .ok ()) := by
  obtain ⟨h1, h2, h3, h4⟩ := h
  have g1 : ¬ ((!truthyStr f.restaurantName || !truthyStr f.contactName ||
      !truthyStr f.email) = true) := fun hg => (gate1_iff f).1 hg h1
  have g2 : ¬ ((!validateEmail f.email) = true) := by simpa using h2
  have g3 : ¬ ((truthyStr f.website && !testScheme f.website) = true) :=
    fun hg => (gate3_iff f).1 hg h3
  have g4 : ¬ ((!f.accept) = true) := by simpa using h4
  unfold handleSubmit
  simp only [g1, g2, g3, g4, if_false, Bool.false_eq_true, World.setStatus, World.print]

theorem firstFailure_of_not_valid (f : Form) (h : ¬ Valid f) :
    (¬ Pre1 f ∧ firstFailure f = "Please fill in restaurant name, your name, and email.") ∨
    (Pre1 f ∧ ¬ Pre2 f ∧ firstFailure f = "Please enter a valid email address.") ∨
    (Pre1 f ∧ Pre2 f ∧ ¬ Pre3 f ∧
      firstFailure f = "Website should start with http:// or https://") ∨
    (Pre1 f ∧ Pre2 f ∧ Pre3 f ∧ ¬ Pre4 f ∧ firstFailure f = "Please agree to be contacted.") := by
  by_cases h1 : Pre1 f
  · by_cases h2 : Pre2 f
    · by_cases h3 : Pre3 f
      · have h4 : ¬ Pre4 f := fun h4 => h ⟨h1, h2, h3, h4⟩
        refine Or.inr (Or.inr (Or.inr ⟨h1, h2, h3, h4, ?_⟩))
        unfold firstFailure
        rw [if_neg (not_not.2 h1), if_neg (not_not.2 h2), if_neg (not_not.2 h3)]
      · refine Or.inr (Or.inr (Or.inl ⟨h1, h2, h3, ?_⟩))
        unfold firstFailure
        rw [if_neg (not_not.2 h1), if_neg (not_not.2 h2), if_pos h3]
    · refine Or.inr (Or.inl ⟨h1, h2, ?_⟩)
      unfold firstFailure
      rw [if_neg (not_not.2 h1), if_pos h2]
  · refine Or.inl ⟨h1, ?_⟩
    unfold firstFailure
    rw [if_pos h1]

/-- A form that fails the gate is rejected with the message of its first
failing precondition; nothing but the status changes. -/
theorem handleSubmit_not_valid (cfg : Config) (env : Env) (f : Form) (w : World)
    (h : ¬ Valid f) :
    handleSubmit cfg env f w =
      ({ w with status := { loading := false, success := false, error := firstFailure f } },
        .ok ()) := by
  rcases firstFailure_of_not_valid f h with ⟨h1, e⟩ | ⟨h1, h2, e⟩ | ⟨h1, h2, h3, e⟩ |
    ⟨h1, h2, h3, h4, e⟩
  · rw [e]
    exact handleSubmit_reject1 cfg env f w h1
  · rw [e]
    exact handleSubmit_reject2 cfg env f w h1 h2
  · rw [e]
    exact handleSubmit_reject3 cfg env f w h1 h2 h3
  · rw [e]
    exact handleSubmit_reject4 cfg env f w h1 h2 h3 h4

end Payfud

namespace Payfud

/-! ## The network part -/

theorem submitBody_fetch_rejected (cfg : Config) (env : Env) (f : Form) (w : World)
    (err : JsError)
    (h : env.fetch w.requests.length (primaryRequest cfg env f) = .rejected err) :
    submitBody cfg env f w =
      ({ w with requests := w.requests ++ [primaryRequest cfg env f] }, .error err) := by
  unfold submitBody World.fetch
  rw [h]

theorem submitBody_json_rejected (cfg : Config) (env : Env) (f : Form) (w : World)
    (status : Nat) (err : JsError)
    (h : env.fetch w.requests.length (primaryRequest cfg env f) =
      .response status (.rejected err)) :
    submitBody cfg env f w =
      ({ w with requests := w.requests ++ [primaryRequest cfg env f] }, .error err) := by
  unfold submitBody World.fetch
  rw [h]

theorem submitBody_failing (cfg : Config) (env : Env) (f : Form) (w : World)
    (status : Nat) (result : Json)
    (h : env.fetch w.requests.length (primaryRequest cfg env f) =
      .response status (.parsed result))
    (hs : statusOk status = false) :
    submitBody cfg env f w =
      ({ w with requests := w.requests ++ [primaryRequest cfg env f] },
        .error (failureError env result ("Request failed: " ++ toString status))) := by
  unfold submitBody World.fetch
  rw [h]
  simp only [hs, Bool.not_false, if_true]

theorem submitBody_success (cfg : Config) (env : Env) (f : Form) (w : World)
    (status : Nat) (result : Json)
    (h : env.fetch w.requests.length (primaryRequest cfg env f) =
      .response status (.parsed result))
    (hs : statusOk status = true) :
    submitBody cfg env f w =
      (let w2 := notifySlack cfg env f
          { w with requests := w.requests ++ [primaryRequest cfg env f] }
        let w3 := w2.setStatus { loading := false, success := true, error := "" }
        if truthyStr cfg.thankYouUrl then w3.schedule cfg.thankYouUrl 2000 else w3,
        .ok ()) := by
  unfold submitBody World.fetch
  rw [h]
  simp only [hs, Bool.not_true, Bool.false_eq_true, if_false]

theorem notifySlack_status (cfg : Config) (env : Env) (f : Form) (w : World) :
    (notifySlack cfg env f w).status = w.status := by
  unfold notifySlack
  split
  · unfold World.fetch
    cases env.fetch w.requests.length (slackRequest cfg f) <;> rfl
  · rfl

theorem notifySlack_requests (cfg : Config) (env : Env) (f : Form) (w : World) :
    (notifySlack cfg env f w).requests =
      w.requests ++ (if truthyStr cfg.slackWebhook then [slackRequest cfg f] else []) := by
  unfold notifySlack
  split
  · unfold World.fetch
    cases env.fetch w.requests.length (slackRequest cfg f) <;> rfl
  · simp

theorem schedule_fields (cfg : Config) (w : World) :
    (if truthyStr cfg.thankYouUrl then w.schedule cfg.thankYouUrl 2000 else w).status =
        w.status ∧
      (if truthyStr cfg.thankYouUrl then w.schedule cfg.thankYouUrl 2000 else w).requests =
        w.requests := by
  split <;> exact ⟨rfl, rfl⟩

/-- A valid form whose primary call is rejected. -/
theorem handleSubmit_fetch_rejected (cfg : Config) (env : Env) (f : Form) (w : World)
    (err : JsError) (hv : Valid f)
    (h : env.fetch w.requests.length (primaryRequest cfg env f) = .rejected err) :
    handleSubmit cfg env f w =
      ({ status := { loading := false, success := false, error := caughtMessage err },
         requests := w.requests ++ [primaryRequest cfg env f],
         console := w.console ++ [("Form submission error:", err)],
         redirect := w.redirect }, .ok ()) := by
  rw [handleSubmit_valid cfg env f w hv,
    submitBody_fetch_rejected cfg env f
      { w with status := { loading := true, success := false, error := "" } } err h]

/-- A valid form whose response body does not parse. -/
theorem handleSubmit_json_rejected (cfg : Config) (env : Env) (f : Form) (w : World)
    (status : Nat) (err : JsError) (hv : Valid f)
    (h : env.fetch w.requests.length (primaryRequest cfg env f) =
      .response status (.rejected err)) :
    handleSubmit cfg env f w =
      ({ status := { loading := false, success := false, error := caughtMessage err },
         requests := w.requests ++ [primaryRequest cfg env f],
         console := w.console ++ [("Form submission error:", err)],
         redirect := w.redirect }, .ok ()) := by
  rw [handleSubmit_valid cfg env f w hv,
    submitBody_json_rejected cfg env f
      { w with status := { loading := true, success := false, error := "" } } status err h]

/-- A valid form answered with a failing status and a parsed body. -/
theorem handleSubmit_failing (cfg : Config) (env : Env) (f : Form) (w : World)
    (status : Nat) (result : Json) (hv : Valid f)
    (h : env.fetch w.requests.length (primaryRequest cfg env f) =
      .response status (.parsed result))
    (hs : statusOk status = false) :
    handleSubmit cfg env f w =
      ({ status := { loading := false, success := false,
                     error := caughtMessage
                       (failureError env result ("Request failed: " ++ toString status)) },
         requests := w.requests ++ [primaryRequest cfg env f],
         console := w.console ++ [("Form submission error:",
           failureError env result ("Request failed: " ++ toString status))],
         redirect := w.redirect }, .ok ()) := by
  rw [handleSubmit_valid cfg env f w hv,
    submitBody_failing cfg env f
      { w with status := { loading := true, success := false, error := "" } } status result h hs]

/-- A valid form answered with a success status and a parsed body. -/
theorem handleSubmit_success (cfg : Config) (env : Env) (f : Form) (w : World)
    (status : Nat) (result : Json) (hv : Valid f)
    (h : env.fetch w.requests.length (primaryRequest cfg env f) =
      .response status (.parsed result))
    (hs : statusOk status = true) :
    (handleSubmit cfg env f w).2 = .ok () ∧
    (handleSubmit cfg env f w).1.status = { loading := false, success := true, error := "" } ∧
    (handleSubmit cfg env f w).1.requests =
      (w.requests ++ [primaryRequest cfg env f]) ++
        (if truthyStr cfg.slackWebhook then [slackRequest cfg f] else []) := by
  rw [handleSubmit_valid cfg env f w hv,
    submitBody_success cfg env f
      { w with status := { loading := true, success := false, error := "" } } status result h hs]
  refine ⟨rfl, ?_, ?_⟩
  · simp only [(schedule_fields cfg _).1, World.setStatus]
  · simp only [(schedule_fields cfg _).2, World.setStatus, notifySlack_requests]

/-- Past the gate the primary request is always issued, and it comes first. -/
theorem handleSubmit_valid_requests (cfg : Config) (env : Env) (f : Form) (w : World)
    (hv : Valid f) :
    (handleSubmit cfg env f w).2 = .ok () ∧
    ∃ rest, (handleSubmit cfg env f w).1.requests =
      w.requests ++ primaryRequest cfg env f :: rest ∧
      (truthyStr cfg.slackWebhook = false → rest = []) := by
  cases h : env.fetch w.requests.length (primaryRequest cfg env f) with
  | rejected err =>
    rw [handleSubmit_fetch_rejected cfg env f w err hv h]
    exact ⟨rfl, [], rfl, fun _ => rfl⟩
  | response status body =>
    cases body with
    | rejected err =>
      rw [handleSubmit_json_rejected cfg env f w status err hv h]
      exact ⟨rfl, [], rfl, fun _ => rfl⟩
    | parsed result =>
      cases hs : statusOk status with
      | false =>
        rw [handleSubmit_failing cfg env f w status result hv h hs]
        exact ⟨rfl, [], rfl, fun _ => rfl⟩
      | true =>
        obtain ⟨e1, _, e3⟩ := handleSubmit_success cfg env f w status result hv h hs
        refine ⟨e1, if truthyStr cfg.slackWebhook then [slackRequest cfg f] else [], ?_, ?_⟩
        · rw [e3]
          simp
        · intro hc
          simp [hc]

theorem not_rejected_of_valid (cfg : Config) (env : Env) (f : Form) (w : World)
    (hv : Valid f) (m : String) : ¬ RejectedWith cfg env f w m := by
  rintro ⟨_, hr⟩
  obtain ⟨_, rest, e, _⟩ := handleSubmit_valid_requests cfg env f w hv
  rw [e] at hr
  have hl := congrArg List.length hr
  simp only [List.length_append, List.length_cons] at hl
  omega

end Payfud

namespace Payfud

/-! ## Helper facts for the claims -/

theorem emailShape_no_space (u : List Char) (h : EmailShape u) :
    ∀ c ∈ u, isJsSpace c = false := by
  obtain ⟨X, Y, Z, rfl, hX, hY, hZ⟩ := h
  intro c hc
  simp only [List.mem_append, List.mem_cons] at hc
  rcases hc with hc | rfl | hc | rfl | hc
  · exact (hX.2 c hc).1
  · decide
  · exact (hY.2 c hc).1
  · decide
  · exact (hZ.2 c hc).1

theorem status_error_ne (a b : String) (l s l' s' : Bool) (h : a ≠ b) :
    ({ loading := l, success := s, error := a } : Status) ≠
      { loading := l', success := s', error := b } := by
  intro e
  exact h (congrArg Status.error e)

theorem emailShape_contains (u : List Char) (h : EmailShape u) : ContainsEmailShape u :=
  ⟨[], u, [], by simp, h⟩

theorem append_ne_empty (a b : String) (h : a ≠ "") : a ++ b ≠ "" := by
  intro e
  apply h
  have hd := congrArg String.data e
  rw [String.data_append] at hd
  have hnil : a.data = [] := (List.append_eq_nil.1 hd).1
  exact String.ext hnil

theorem caughtMessage_of_nonempty (m : String) (h : m ≠ "") : caughtMessage ⟨some m⟩ = m := by
  simp [caughtMessage, truthyStr, h]

theorem caughtMessage_ne_empty (err : JsError) : caughtMessage err ≠ "" := by
  unfold caughtMessage
  cases err.message with
  | none => decide
  | some m =>
    by_cases hm : truthyStr m = true
    · simp only [hm, if_true]
      exact (truthyStr_iff m).1 hm
    · simp only [hm, Bool.false_eq_true, if_false]
      decide

theorem buildPayload_eq (env : Env) (f : Form) :
    buildPayload env f = f.fields ++ [("submittedAt", .str env.now),
      ("location", .str "St. Petersburg, FL"), ("launchStatus", .str "Launched")] := by
  simp [buildPayload, Form.fields, setField]

/-! ## The claims -/

/-- C1. Validation gate: from any prior world, a form that fails at least one of
the four preconditions ends with the status `{loading:false, success:false,
error:m}`, where `m` is the message of the lowest-numbered failing
precondition, and no request is issued; an empty restaurantName, contactName
or email gives the required-fields message. -/
theorem validation_gate (cfg : Config) (env : Env) (f : Form) (w : World) (h : ¬ Valid f) :
    (handleSubmit cfg env f w).1.status =
        { loading := false, success := false, error := firstFailure f } ∧
      (handleSubmit cfg env f w).1.requests = w.requests ∧
      ((f.restaurantName = "" ∨ f.contactName = "" ∨ f.email = "") →
        firstFailure f = "Please fill in restaurant name, your name, and email.") := by
  rw [handleSubmit_not_valid cfg env f w h]
  refine ⟨rfl, rfl, ?_⟩
  intro he
  have h1 : ¬ Pre1 f := by
    rintro ⟨a, b, c⟩
    rcases he with he | he | he
    · exact a he
    · exact b he
    · exact c he
  unfold firstFailure
  rw [if_pos h1]

theorem validation_gate_witness :
    ¬ Valid initialForm ∧
      ((handleSubmit sourceConfig (constEnv (.rejected ⟨none⟩)) initialForm idleWorld).1.status =
          { loading := false, success := false, error := firstFailure initialForm } ∧
        (handleSubmit sourceConfig (constEnv (.rejected ⟨none⟩)) initialForm
          idleWorld).1.requests = idleWorld.requests ∧
        ((initialForm.restaurantName = "" ∨ initialForm.contactName = "" ∨
            initialForm.email = "") →
          firstFailure initialForm =
            "Please fill in restaurant name, your name, and email.")) :=
  ⟨by decide,
    validation_gate sourceConfig (constEnv (.rejected ⟨none⟩)) initialForm idleWorld
      (by decide)⟩

/-- C2, as the code has it. A valid form answered with a success status ends
with `{loading:false, success:true, error:""}` whenever the body parses as
JSON, whatever the parsed value; when reading the body throws, it ends with
`{loading:false, success:false, error:e}`, `e` being the caught message. -/
theorem success_needs_parsed_body (cfg : Config) (env : Env) (f : Form) (w : World)
    (status : Nat) (body : BodyResult) (hv : Valid f) (hs : statusOk status = true)
    (h : env.fetch w.requests.length (primaryRequest cfg env f) = .response status body) :
    (handleSubmit cfg env f w).1.status =
      match body with
      | .parsed _ => { loading := false, success := true, error := "" }
      | .rejected err => { loading := false, success := false, error := caughtMessage err } := by
  cases body with
  | parsed result => exact (handleSubmit_success cfg env f w status result hv h hs).2.1
  | rejected err => rw [handleSubmit_json_rejected cfg env f w status err hv h]

theorem success_needs_parsed_body_witness :
    Valid sampleForm ∧ statusOk 204 = true ∧
      (handleSubmit sourceConfig (constEnv (.response 204 (.parsed (.num "0")))) sampleForm
        idleWorld).1.status = { loading := false, success := true, error := "" } :=
  ⟨by decide, by decide,
    success_needs_parsed_body sourceConfig (constEnv (.response 204 (.parsed (.num "0"))))
      sampleForm idleWorld 204 (.parsed (.num "0")) (by decide) (by decide) rfl⟩

/-- C2 fails as stated: a valid form answered with status 200 and a body that
is not JSON does not end in the success status. -/
theorem success_status_counterexample :
    Valid sampleForm ∧ statusOk 200 = true ∧
      (handleSubmit sourceConfig
        (constEnv (.response 200 (.rejected ⟨some "Unexpected end of JSON input"⟩)))
        sampleForm idleWorld).1.status =
          { loading := false, success := false, error := "Unexpected end of JSON input" } := by
  decide

/-- C3. Payload assembly: with the configuration of the source, a valid form
issues exactly one request, a POST to the fixed endpoint with the JSON content
type, whose body is the sixteen fields of the form with their values followed
by `submittedAt` (the current timestamp), `location` and `launchStatus`; the
three added keys are new, so no form field is overwritten. -/
theorem payload_assembly (env : Env) (f : Form) (w : World) (hv : Valid f) :
    (handleSubmit sourceConfig env f w).1.requests =
        w.requests ++ [primaryRequest sourceConfig env f] ∧
      (primaryRequest sourceConfig env f).url =
        "https://payfund-backend.onrender.com/api/leads" ∧
      (primaryRequest sourceConfig env f).method = "POST" ∧
      (primaryRequest sourceConfig env f).headers = [("Content-Type", "application/json")] ∧
      (primaryRequest sourceConfig env f).body = .obj (buildPayload env f) ∧
      buildPayload env f =
        [("restaurantName", .str f.restaurantName), ("contactName", .str f.contactName),
         ("email", .str f.email), ("phone", .str f.phone), ("city", .str f.city),
         ("state", .str f.state), ("website", .str f.website), ("role", .str f.role),
         ("accept", .bool f.accept), ("utm_source", .str f.utm_source),
         ("utm_medium", .str f.utm_medium), ("utm_campaign", .str f.utm_campaign),
         ("gclid", .str f.gclid), ("fbclid", .str f.fbclid), ("ref", .str f.ref),
         ("recaptchaToken", .str f.recaptchaToken), ("submittedAt", .str env.now),
         ("location", .str "St. Petersburg, FL"), ("launchStatus", .str "Launched")] ∧
      f.fields.length = 16 ∧
      (∀ kv ∈ f.fields, (buildPayload env f).lookup kv.1 = some kv.2) ∧
      (buildPayload env f).lookup "submittedAt" = some (.str env.now) ∧
      (buildPayload env f).lookup "location" = some (.str "St. Petersburg, FL") ∧
      (buildPayload env f).lookup "launchStatus" = some (.str "Launched") := by
  obtain ⟨_, rest, e, hrest⟩ := handleSubmit_valid_requests sourceConfig env f w hv
  have hnil : rest = [] := hrest (by decide)
  rw [hnil] at e
  refine ⟨e, rfl, rfl, rfl, rfl, ?_, rfl, ?_, ?_, ?_, ?_⟩
  · rw [buildPayload_eq env f]
    rfl
  · simp [buildPayload, Form.fields, setField, List.lookup]
  · simp [buildPayload, Form.fields, setField, List.lookup]
  · simp [buildPayload, Form.fields, setField, List.lookup]
  · simp [buildPayload, Form.fields, setField, List.lookup]

theorem payload_assembly_witness :
    Valid sampleForm ∧
      (handleSubmit sourceConfig (constEnv (.response 200 (.parsed .null))) sampleForm
        idleWorld).1.requests =
          idleWorld.requests ++
            [primaryRequest sourceConfig (constEnv (.response 200 (.parsed .null))) sampleForm] :=
  ⟨by decide,
    (payload_assembly (constEnv (.response 200 (.parsed .null))) sampleForm idleWorld
      (by decide)).1⟩

/-- C4, as the code has it. A valid form answered with a failing status and a
parsed body ends with `{loading:false, success:false, error:e}` after exactly one
request: `e` is the message field when that field is a non-empty string, and
`e` is "Request failed: " followed by the status code when the body is not
`null` and its message field is absent or the empty string. -/
theorem failing_status (cfg : Config) (env : Env) (f : Form) (w : World)
    (status : Nat) (result : Json) (hv : Valid f) (hs : statusOk status = false)
    (h : env.fetch w.requests.length (primaryRequest cfg env f) =
      .response status (.parsed result)) :
    (handleSubmit cfg env f w).1.status.loading = false ∧
      (handleSubmit cfg env f w).1.status.success = false ∧
      (handleSubmit cfg env f w).1.requests = w.requests ++ [primaryRequest cfg env f] ∧
      (∀ fields m, result = .obj fields → fields.lookup "message" = some (.str m) → m ≠ "" →
        (handleSubmit cfg env f w).1.status.error = m) ∧
      (result ≠ .null →
        (∀ fields, result = .obj fields →
          fields.lookup "message" = none ∨ fields.lookup "message" = some (.str "")) →
        (handleSubmit cfg env f w).1.status.error = "Request failed: " ++ toString status) := by
  rw [handleSubmit_failing cfg env f w status result hv h hs]
  refine ⟨rfl, rfl, rfl, ?_, ?_⟩
  · rintro fields m rfl hm hne
    have key : failureError env (.obj fields) ("Request failed: " ++ toString status) =
        ⟨some m⟩ := by
      simp [failureError, readMessage, hm, Json.truthy, Json.toText, hne]
    simp only [key]
    exact caughtMessage_of_nonempty m hne
  · intro hnull hfields
    have hfb : "Request failed: " ++ toString status ≠ "" :=
      append_ne_empty _ _ (by decide)
    have key : failureError env result ("Request failed: " ++ toString status) =
        ⟨some ("Request failed: " ++ toString status)⟩ := by
      cases result with
      | null => exact absurd rfl hnull
      | bool b => rfl
      | num t => rfl
      | str t => rfl
      | arr xs => rfl
      | obj fields =>
        rcases hfields fields rfl with hm | hm
        · simp [failureError, readMessage, hm]
        · simp [failureError, readMessage, hm, Json.truthy]
    simp only [key]
    exact caughtMessage_of_nonempty _ hfb

theorem failing_status_witness :
    Valid sampleForm ∧ statusOk 409 = false ∧
      (handleSubmit sourceConfig
        (constEnv (.response 409 (.parsed (.obj [("message", .str "Duplicate email")]))))
        sampleForm idleWorld).1.status.error = "Duplicate email" :=
  ⟨by decide, by decide,
    (failing_status sourceConfig
      (constEnv (.response 409 (.parsed (.obj [("message", .str "Duplicate email")]))))
      sampleForm idleWorld 409 (.obj [("message", .str "Duplicate email")]) (by decide)
      (by decide) rfl).2.2.2.1 [("message", .str "Duplicate email")] "Duplicate email" rfl rfl
      (by decide)⟩

/-- C4 fails as stated: a failing response whose body carries the message
field `""` does not end with that message but with the generic one. -/
theorem failing_status_counterexample :
    Valid sampleForm ∧ statusOk 500 = false ∧
      (handleSubmit sourceConfig
        (constEnv (.response 500 (.parsed (.obj [("message", .str "")]))))
        sampleForm idleWorld).1.status =
          { loading := false, success := false, error := "Request failed: 500" } ∧
      (handleSubmit sourceConfig
        (constEnv (.response 500 (.parsed (.obj [("message", .str "")]))))
        sampleForm idleWorld).1.status.error ≠ "" := by
  decide

/-- C5. Transport failure: when the call of `fetch` or the reading of the
response body throws, a valid form ends with `{loading:false, success:false,
error:e}` and the handler completes without throwing; `e` is never empty: it is
the exception's message when that is a non-empty string and "Something went
wrong. Please try again." when the message is absent or empty. -/
theorem transport_failure (cfg : Config) (env : Env) (f : Form) (w : World)
    (err : JsError) (hv : Valid f)
    (h : env.fetch w.requests.length (primaryRequest cfg env f) = .rejected err ∨
      ∃ status, env.fetch w.requests.length (primaryRequest cfg env f) =
        .response status (.rejected err)) :
    (handleSubmit cfg env f w).2 = .ok () ∧
      (handleSubmit cfg env f w).1.status =
        { loading := false, success := false, error := caughtMessage err } ∧
      caughtMessage err ≠ "" ∧
      (∀ m, err.message = some m → m ≠ "" → caughtMessage err = m) ∧
      ((err.message = none ∨ err.message = some "") →
        caughtMessage err = "Something went wrong. Please try again.") := by
  have hrun : handleSubmit cfg env f w =
      ({ status := { loading := false, success := false, error := caughtMessage err },
         requests := w.requests ++ [primaryRequest cfg env f],
         console := w.console ++ [("Form submission error:", err)],
         redirect := w.redirect }, .ok ()) := by
    rcases h with h | ⟨status, h⟩
    · exact handleSubmit_fetch_rejected cfg env f w err hv h
    · exact handleSubmit_json_rejected cfg env f w status err hv h
  rw [hrun]
  refine ⟨rfl, rfl, caughtMessage_ne_empty err, ?_, ?_⟩
  · intro m hm hne
    simp [caughtMessage, hm, truthyStr, hne]
  · rintro (hm | hm)
    · simp [caughtMessage, hm]
    · simp [caughtMessage, hm, truthyStr]

theorem transport_failure_witness :
    Valid sampleForm ∧
      (handleSubmit sourceConfig (constEnv (.rejected ⟨none⟩)) sampleForm idleWorld).1.status =
        { loading := false, success := false,
          error := "Something went wrong. Please try again." } :=
  ⟨by decide,
    (transport_failure sourceConfig (constEnv (.rejected ⟨none⟩)) sampleForm idleWorld ⟨none⟩
      (by decide) (Or.inl rfl)).2.1⟩

/-- C6. The secondary notification never alters the outcome: for a valid form
answered with a success status and a parsed body, whatever the configuration
of the Slack webhook and whatever the network answers to the secondary call,
the handler completes with `{loading:false, success:true, error:""}`, the same
status as with the webhook unconfigured. -/
theorem secondary_never_alters (cfg : Config) (env : Env) (f : Form) (w : World)
    (status : Nat) (result : Json) (hv : Valid f) (hs : statusOk status = true)
    (h : env.fetch w.requests.length (primaryRequest cfg env f) =
      .response status (.parsed result)) :
    (handleSubmit cfg env f w).2 = .ok () ∧
      (handleSubmit cfg env f w).1.status = { loading := false, success := true, error := "" } ∧
      (handleSubmit cfg env f w).1.status =
        (handleSubmit { cfg with slackWebhook := "" } env f w).1.status := by
  obtain ⟨e1, e2, _⟩ := handleSubmit_success cfg env f w status result hv h hs
  obtain ⟨_, e2', _⟩ :=
    handleSubmit_success { cfg with slackWebhook := "" } env f w status result hv h hs
  exact ⟨e1, e2, e2.trans e2'.symm⟩

theorem secondary_never_alters_witness :
    Valid sampleForm ∧ statusOk 200 = true ∧
      (handleSubmit slackConfig slackDownEnv sampleForm idleWorld).1.status =
        { loading := false, success := true, error := "" } :=
  ⟨by decide, by decide,
    (secondary_never_alters slackConfig slackDownEnv sampleForm idleWorld 200 (.obj [])
      (by decide) (by decide) rfl).2.1⟩

/-- C7, as the code has it. For a form with non-empty restaurantName,
contactName and email, the submission is rejected with "Please enter a valid
email address." if and only if no substring of the email has the form X@Y.Z
(X, Y, Z non-empty, free of whitespace and `@`); an email that has this form as
a whole passes, so "a@b.co" passes and "abc", "a@b", "@b.com" are rejected. -/
theorem email_check (cfg : Config) (env : Env) (f : Form) (w : World) (h1 : Pre1 f) :
    (RejectedWith cfg env f w "Please enter a valid email address." ↔
        ¬ ContainsEmailShape f.email.toList) ∧
      (EmailShape f.email.toList →
        ¬ RejectedWith cfg env f w "Please enter a valid email address.") ∧
      validateEmail "abc" = false ∧ validateEmail "a@b" = false ∧
      validateEmail "@b.com" = false ∧ validateEmail "a@b.co" = true := by
  have key : RejectedWith cfg env f w "Please enter a valid email address." ↔
      ¬ ContainsEmailShape f.email.toList := by
    rw [← validateEmail_iff]
    constructor
    · intro hr h2
      by_cases h3 : Pre3 f
      · by_cases h4 : Pre4 f
        · exact not_rejected_of_valid cfg env f w ⟨h1, h2, h3, h4⟩ _ hr
        · have e := hr.1
          rw [handleSubmit_reject4 cfg env f w h1 h2 h3 h4] at e
          exact status_error_ne _ _ _ _ _ _ (by decide) e
      · have e := hr.1
        rw [handleSubmit_reject3 cfg env f w h1 h2 h3] at e
        exact status_error_ne _ _ _ _ _ _ (by decide) e
    · intro h2
      unfold RejectedWith
      rw [handleSubmit_reject2 cfg env f w h1 h2]
      exact ⟨rfl, rfl⟩
  refine ⟨key, ?_, by decide, by decide, by decide, by decide⟩
  intro hs hr
  exact key.1 hr (emailShape_contains _ hs)

theorem email_check_witness :
    Pre1 badEmailForm ∧
      RejectedWith sourceConfig (constEnv (.rejected ⟨none⟩)) badEmailForm idleWorld
        "Please enter a valid email address." :=
  ⟨by decide,
    (email_check sourceConfig (constEnv (.rejected ⟨none⟩)) badEmailForm idleWorld
      (by decide)).1.2
      (fun hc => absurd ((validateEmail_iff badEmailForm.email).2 hc) (by decide))⟩

/-- C7 fails as stated: the email "a b@c.d" is not of the form X@Y.Z as a
whole, the three required fields are non-empty, and the submission does not
produce the invalid-email error: it goes through to the network. -/
theorem email_anchor_counterexample :
    Pre1 spacedForm ∧ ¬ EmailShape spacedForm.email.toList ∧
      (handleSubmit sourceConfig (constEnv (.response 200 (.parsed .null))) spacedForm
        idleWorld).1.status = { loading := false, success := true, error := "" } ∧
      (handleSubmit sourceConfig (constEnv (.response 200 (.parsed .null))) spacedForm
        idleWorld).1.status.error ≠ "Please enter a valid email address." := by
  refine ⟨by decide, ?_, by decide, by decide⟩
  intro hs
  have hsp := emailShape_no_space _ hs ' ' (by decide)
  revert hsp
  decide

/-- C8. Website check: for a form that passes preconditions 1 and 2, the
submission is rejected with "Website should start with http:// or https://"
if and only if the website is non-empty and does not begin with `http://` or
`https://`, letter case ignored; "HTTP://x" and "hTtPs://x" pass the test. -/
theorem website_check (cfg : Config) (env : Env) (f : Form) (w : World)
    (h1 : Pre1 f) (h2 : Pre2 f) :
    (RejectedWith cfg env f w "Website should start with http:// or https://" ↔
        f.website ≠ "" ∧ ¬ HasHttpScheme f.website.toList) ∧
      testScheme "HTTP://x" = true ∧ testScheme "hTtPs://x" = true := by
  refine ⟨?_, by decide, by decide⟩
  have hp3 : ¬ Pre3 f ↔ f.website ≠ "" ∧ ¬ HasHttpScheme f.website.toList := by
    unfold Pre3
    tauto
  rw [← hp3]
  constructor
  · intro hr h3
    by_cases h4 : Pre4 f
    · exact not_rejected_of_valid cfg env f w ⟨h1, h2, h3, h4⟩ _ hr
    · have e := hr.1
      rw [handleSubmit_reject4 cfg env f w h1 h2 h3 h4] at e
      exact status_error_ne _ _ _ _ _ _ (by decide) e
  · intro h3
    unfold RejectedWith
    rw [handleSubmit_reject3 cfg env f w h1 h2 h3]
    exact ⟨rfl, rfl⟩

theorem website_check_witness :
    Pre1 badWebsiteForm ∧ Pre2 badWebsiteForm ∧
      RejectedWith sourceConfig (constEnv (.rejected ⟨none⟩)) badWebsiteForm idleWorld
        "Website should start with http:// or https://" :=
  ⟨by decide, by decide,
    (website_check sourceConfig (constEnv (.rejected ⟨none⟩)) badWebsiteForm idleWorld
      (by decide) (by decide)).1.2 (by decide)⟩

/-- C9, as the code has it. A form with `accept = false` is always rejected
without a request, with the message of its lowest-numbered failing
precondition; that message is "Please agree to be contacted." when
preconditions 1 to 3 hold. -/
theorem consent_check (cfg : Config) (env : Env) (f : Form) (w : World)
    (ha : f.accept = false) :
    RejectedWith cfg env f w (firstFailure f) ∧
      (Pre1 f → Pre2 f → Pre3 f → firstFailure f = "Please agree to be contacted.") := by
  have hv : ¬ Valid f := by
    rintro ⟨_, _, _, h4⟩
    have h4' : f.accept = true := h4
    rw [ha] at h4'
    exact Bool.false_ne_true h4'
  constructor
  · unfold RejectedWith
    rw [handleSubmit_not_valid cfg env f w hv]
    exact ⟨rfl, rfl⟩
  · intro h1 h2 h3
    unfold firstFailure
    rw [if_neg (not_not.2 h1), if_neg (not_not.2 h2), if_neg (not_not.2 h3)]

theorem consent_check_witness :
    noConsentForm.accept = false ∧
      RejectedWith sourceConfig (constEnv (.rejected ⟨none⟩)) noConsentForm idleWorld
        (firstFailure noConsentForm) :=
  ⟨rfl,
    (consent_check sourceConfig (constEnv (.rejected ⟨none⟩)) noConsentForm idleWorld rfl).1⟩

/-- C9 fails as stated: the initial form has `accept = false` and the
submission produces the required-fields error, not the consent error. -/
theorem consent_counterexample :
    initialForm.accept = false ∧
      (handleSubmit sourceConfig (constEnv (.rejected ⟨none⟩)) initialForm idleWorld).1.status =
        { loading := false, success := false,
          error := "Please fill in restaurant name, your name, and email." } ∧
      (handleSubmit sourceConfig (constEnv (.rejected ⟨none⟩)) initialForm
        idleWorld).1.status.error ≠ "Please agree to be contacted." := by
  decide

/-- C10. The email test is an unanchored search: `validateEmail s` holds exactly
when `s` splits as p ++ X ++ "@" ++ Y ++ "." ++ Z ++ q with p, q arbitrary and
X, Y, Z non-empty and free of whitespace and `@`; equivalently, when some `@`
of `s` comes right after a plain character and is followed by a maximal run of
plain characters holding a `.` that is neither its first nor its last
character. -/
theorem validateEmail_unanchored (s : String) :
    (validateEmail s = true ↔
        ∃ p X Y Z q, s.toList = p ++ (X ++ '@' :: (Y ++ '.' :: Z)) ++ q ∧
          PlainRun X ∧ PlainRun Y ∧ PlainRun Z) ∧
      (validateEmail s = true ↔ AtWithDottedRun s.toList) := by
  have key := validateEmail_iff s
  constructor
  · rw [key]
    constructor
    · rintro ⟨p, m, q, e, X, Y, Z, rfl, hX, hY, hZ⟩
      exact ⟨p, X, Y, Z, q, by rw [e]; simp, hX, hY, hZ⟩
    · rintro ⟨p, X, Y, Z, q, e, hX, hY, hZ⟩
      exact ⟨p, X ++ '@' :: (Y ++ '.' :: Z), q, by rw [e]; simp,
        X, Y, Z, rfl, hX, hY, hZ⟩
  · rw [key]
    exact ⟨contains_imp_run _, run_imp_contains _⟩

end Payfud
